import Mathlib

/-!
Shallow embedding of the ExprSolver expression-tree engine (src/src/ast.hxx,
src/main.cxx).  The engine is a fixed hierarchy of AST node classes, each with
`evaluate() -> double` and `getType() -> ASTNode::Type`, plus a shared
variable table consulted by `Identifier` nodes.

Modelling decisions:
* IEEE-754 doubles are modelled by the inductive type `Double`: exact finite
  values as rationals, plus the special values `posInf`, `negInf`, `nan`.
  Signed zero is not distinguished.  The arithmetic operations follow the
  IEEE-754 rules on these representatives; `std::pow` (an external library
  call) is modelled exactly at integer exponents and at the IEEE special
  cases, while a positive finite base with a finite non-integer exponent
  (whose exact value is irrational, hence outside a rational-valued model)
  is mapped to `nan`.
* The `std::cerr` diagnostic stream is modelled as the chronologically
  ordered list of diagnostics a call to `evaluate` writes.
* The static `variableTable` (a `std::unordered_map<std::string, double>`)
  is modelled as a finite partial map `String → Option Double`; it is
  threaded through `evaluate` so that preservation of the table is a proved
  property rather than an assumption (`std::unordered_map::at` does not
  insert on a missing key).
-/

/-- Model of a C++ `double`: exact finite values as rationals plus the IEEE
special values.  Signed zero is not distinguished. -/
inductive Double where
  | num (q : ℚ)
  | posInf
  | negInf
  | nan
deriving DecidableEq, Repr

namespace Double

/-- The test `x == 0` on doubles: true exactly on (either) zero; false on
infinities and on NaN (any comparison with NaN is false). -/
def isZero : Double → Bool
  | num q => q == 0
  | _ => false

/-- IEEE negation (the C++ unary `-`). -/
def neg : Double → Double
  | num q => num (-q)
  | posInf => negInf
  | negInf => posInf
  | nan => nan

/-- IEEE addition (the C++ binary `+`). -/
def add : Double → Double → Double
  | nan, _ => nan
  | _, nan => nan
  | posInf, negInf => nan
  | negInf, posInf => nan
  | posInf, _ => posInf
  | negInf, _ => negInf
  | num _, posInf => posInf
  | num _, negInf => negInf
  | num a, num b => num (a + b)

/-- IEEE subtraction (the C++ binary `-`): `x - y = x + (-y)` up to the sign
of zero, which this model does not track. -/
def sub (a b : Double) : Double := a.add b.neg

/-- IEEE multiplication (the C++ binary `*`). -/
def mul : Double → Double → Double
  | nan, _ => nan
  | _, nan => nan
  | posInf, posInf => posInf
  | posInf, negInf => negInf
  | negInf, posInf => negInf
  | negInf, negInf => posInf
  | posInf, num q => if 0 < q then posInf else if q < 0 then negInf else nan
  | negInf, num q => if 0 < q then negInf else if q < 0 then posInf else nan
  | num q, posInf => if 0 < q then posInf else if q < 0 then negInf else nan
  | num q, negInf => if 0 < q then negInf else if q < 0 then posInf else nan
  | num a, num b => num (a * b)

/-- IEEE division (the C++ binary `/`).  The `Divide` node only reaches this
operation after its `== 0` guard, so the divisor is never `num 0` there; the
case is still given its IEEE value (division of a nonzero finite by zero is a
signed infinity, `0/0` is NaN). -/
def div : Double → Double → Double
  | nan, _ => nan
  | _, nan => nan
  | posInf, posInf => nan
  | posInf, negInf => nan
  | negInf, posInf => nan
  | negInf, negInf => nan
  | posInf, num q => if q < 0 then negInf else posInf
  | negInf, num q => if q < 0 then posInf else negInf
  | num _, posInf => num 0
  | num _, negInf => num 0
  | num a, num b =>
      if b = 0 then (if 0 < a then posInf else if a < 0 then negInf else nan)
      else num (a / b)

/-- Model of `std::pow` following IEEE-754 `pow` (C99 F.10.4.4): `pow(x, 0)`
is `1` for every `x` (NaN included), `pow(1, y)` is `1` for every `y` (NaN
included), otherwise NaN operands propagate; infinite bases and exponents
follow the IEEE special-case table; a finite base with an integer exponent
is computed exactly; a negative finite base with a non-integer exponent is
NaN.  A positive finite base with a finite non-integer exponent has an
irrational exact value, which this rational-valued model maps to `nan`. -/
def pow (x y : Double) : Double :=
  match y with
  | num e =>
    if e = 0 then num 1
    else
      match x with
      | nan => nan
      | posInf => if 0 < e then posInf else num 0
      | negInf =>
          if 0 < e then (if e.den = 1 ∧ e.num % 2 = 1 then negInf else posInf)
          else num 0
      | num a =>
          if a = 1 then num 1
          else if e.den = 1 then
            (if a = 0 ∧ e < 0 then posInf else num (a ^ e.num))
          else nan
  | nan =>
    match x with
    | num a => if a = 1 then num 1 else nan
    | _ => nan
  | posInf =>
    match x with
    | nan => nan
    | posInf => posInf
    | negInf => posInf
    | num a => if a = 1 ∨ a = -1 then num 1 else if 1 < a ∨ a < -1 then posInf else num 0
  | negInf =>
    match x with
    | nan => nan
    | posInf => num 0
    | negInf => num 0
    | num a => if a = 1 ∨ a = -1 then num 1 else if 1 < a ∨ a < -1 then num 0 else posInf

end Double

/-- One diagnostic written to the error stream (`std::cerr`) during
evaluation. -/
inductive Diag where
  | UndefinedVariable (name : String)
  | DivisionByZero
deriving DecidableEq, Repr

/-- The static `Identifier::variableTable`, a map from variable name to
value (`std::unordered_map<std::string, double>`; key order is irrelevant,
so a partial function is a faithful model). -/
def Env : Type := String → Option Double

/-- The empty table (its state after static initialisation). -/
def emptyEnv : Env := fun _ => none

/-- `Identifier::setVariable(id, value)`: `variableTable[id] = value`
inserts or overwrites the binding. -/
def setVariable (env : Env) (id : String) (value : Double) : Env :=
  fun n => if n = id then some value else env n

/-- `Identifier::clearVariables()`: `variableTable.clear()` removes every
binding. -/
def clearVariables (_env : Env) : Env := fun _ => none

/-- The constructible AST node classes of `ast.hxx`.  The abstract classes
`ASTNode`, `Unary` and `Binary` have pure-virtual members (`Unary` keeps
`getType` pure, `Binary` never implements `evaluate`), so no object of those
classes can exist; the nine leaf classes below are exactly the constructible
variants.  Each unary/binary node owns its children (`unique_ptr`, moved in
at construction). -/
inductive ASTNode where
  | Constant (value : Double)
  | Identifier (name : String)
  | UnaryPlus (operand : ASTNode)
  | UnaryMinus (operand : ASTNode)
  | Add (left right : ASTNode)
  | Subtract (left right : ASTNode)
  | Multiply (left right : ASTNode)
  | Divide (left right : ASTNode)
  | Power (left right : ASTNode)
deriving DecidableEq, Repr

/-- The `ASTNode::Type` enumeration, including the generic `Unary` and
`Binary` tags that appear in the enum. -/
inductive NodeType where
  | Constant
  | Identifier
  | Unary
  | UnaryPlus
  | UnaryMinus
  | Binary
  | Add
  | Subtract
  | Multiply
  | Divide
  | Power
deriving DecidableEq, Repr

/-- `getType()` of each constructible node class: every leaf class overrides
it with its own tag (`Binary::getType`, which would return the generic
`Binary` tag, is overridden in all five constructible subclasses, and
`Unary::getType` is pure virtual). -/
def getType : ASTNode → NodeType
  | .Constant _ => .Constant
  | .Identifier _ => .Identifier
  | .UnaryPlus _ => .UnaryPlus
  | .UnaryMinus _ => .UnaryMinus
  | .Add _ _ => .Add
  | .Subtract _ _ => .Subtract
  | .Multiply _ _ => .Multiply
  | .Divide _ _ => .Divide
  | .Power _ _ => .Power

/-- `evaluate()` of each node class, translated line by line from
`ast.hxx`.  The result is the returned value, the chronological list of
diagnostics written to `std::cerr`, and the variable table after the call
(the table is threaded so that its preservation is proved, not assumed:
`variableTable.at` throws on a missing key instead of inserting).
Operands of the C++ binary operators are evaluated in source order,
left-to-right.  `Divide::evaluate` first evaluates its RIGHT child for the
`== 0` test; on zero it reports division by zero and returns `INFINITY`
without ever evaluating the left child; otherwise it evaluates the left
child and then the right child a second time. -/
def evaluate : ASTNode → Env → Double × List Diag × Env
  | .Constant v, env => (v, [], env)
  | .Identifier id, env =>
      match env id with
      | some v => (v, [], env)
      | none => (.num 0, [.UndefinedVariable id], env)
  | .UnaryPlus a, env =>
      let r := evaluate a env
      (r.1, r.2.1, r.2.2)
  | .UnaryMinus a, env =>
      let r := evaluate a env
      (r.1.neg, r.2.1, r.2.2)
  | .Add l r, env =>
      let rl := evaluate l env
      let rr := evaluate r rl.2.2
      (rl.1.add rr.1, rl.2.1 ++ rr.2.1, rr.2.2)
  | .Subtract l r, env =>
      let rl := evaluate l env
      let rr := evaluate r rl.2.2
      (rl.1.sub rr.1, rl.2.1 ++ rr.2.1, rr.2.2)
  | .Multiply l r, env =>
      let rl := evaluate l env
      let rr := evaluate r rl.2.2
      (rl.1.mul rr.1, rl.2.1 ++ rr.2.1, rr.2.2)
  | .Divide l r, env =>
      let rr := evaluate r env
      if rr.1.isZero then
        (.posInf, rr.2.1 ++ [.DivisionByZero], rr.2.2)
      else
        let rl := evaluate l rr.2.2
        let rr2 := evaluate r rl.2.2
        (rl.1.div rr2.1, rr.2.1 ++ (rl.2.1 ++ rr2.2.1), rr2.2.2)
  | .Power l r, env =>
      let rl := evaluate l env
      let rr := evaluate r rl.2.2
      (rl.1.pow rr.1, rl.2.1 ++ rr.2.1, rr.2.2)

/-- The numeric result of an `evaluate()` call. -/
def evalValue (n : ASTNode) (env : Env) : Double := (evaluate n env).1

/-- The diagnostics an `evaluate()` call writes to the error stream, in
order. -/
def evalDiags (n : ASTNode) (env : Env) : List Diag := (evaluate n env).2.1

/-- The variable table after an `evaluate()` call. -/
def evalEnv (n : ASTNode) (env : Env) : Env := (evaluate n env).2.2

/-! ### Basic lemmas about `evaluate` -/

/-- Evaluation never changes the variable table: `Identifier::evaluate`
reads it with `at`, which throws on a missing key instead of inserting, and
no other node touches the table. -/
theorem evaluate_env (n : ASTNode) : ∀ env : Env, (evaluate n env).2.2 = env := by
  induction n with
  | Constant v => intro env; rfl
  | Identifier id => intro env; cases h : env id <;> simp [evaluate, h]
  | UnaryPlus a ih => intro env; simp [evaluate, ih]
  | UnaryMinus a ih => intro env; simp [evaluate, ih]
  | Add l r ihl ihr => intro env; simp [evaluate, ihl, ihr]
  | Subtract l r ihl ihr => intro env; simp [evaluate, ihl, ihr]
  | Multiply l r ihl ihr => intro env; simp [evaluate, ihl, ihr]
  | Divide l r ihl ihr =>
      intro env
      simp only [evaluate]
      split <;> simp [ihl, ihr]
  | Power l r ihl ihr => intro env; simp [evaluate, ihl, ihr]

/-- An `evaluate` call is its value, its diagnostics, and the unchanged
table. -/
theorem evaluate_eq (n : ASTNode) (env : Env) :
    evaluate n env = (evalValue n env, evalDiags n env, env) :=
  Prod.ext rfl (Prod.ext rfl (evaluate_env n env))

theorem evaluate_Constant (v : Double) (env : Env) :
    evaluate (.Constant v) env = (v, [], env) := rfl

theorem evaluate_Identifier_found (id : String) (v : Double) (env : Env)
    (h : env id = some v) : evaluate (.Identifier id) env = (v, [], env) := by
  simp [evaluate, h]

theorem evaluate_Identifier_missing (id : String) (env : Env)
    (h : env id = none) :
    evaluate (.Identifier id) env = (.num 0, [.UndefinedVariable id], env) := by
  simp [evaluate, h]

theorem evaluate_UnaryPlus (a : ASTNode) (env : Env) :
    evaluate (.UnaryPlus a) env = (evalValue a env, evalDiags a env, env) := by
  simp [evaluate, evaluate_eq a env]

theorem evaluate_UnaryMinus (a : ASTNode) (env : Env) :
    evaluate (.UnaryMinus a) env
      = ((evalValue a env).neg, evalDiags a env, env) := by
  simp [evaluate, evaluate_eq a env]

theorem evaluate_Add (l r : ASTNode) (env : Env) :
    evaluate (.Add l r) env
      = ((evalValue l env).add (evalValue r env),
         evalDiags l env ++ evalDiags r env, env) := by
  simp [evaluate, evaluate_env, evalValue, evalDiags]

theorem evaluate_Subtract (l r : ASTNode) (env : Env) :
    evaluate (.Subtract l r) env
      = ((evalValue l env).sub (evalValue r env),
         evalDiags l env ++ evalDiags r env, env) := by
  simp [evaluate, evaluate_env, evalValue, evalDiags]

theorem evaluate_Multiply (l r : ASTNode) (env : Env) :
    evaluate (.Multiply l r) env
      = ((evalValue l env).mul (evalValue r env),
         evalDiags l env ++ evalDiags r env, env) := by
  simp [evaluate, evaluate_env, evalValue, evalDiags]

theorem evaluate_Power (l r : ASTNode) (env : Env) :
    evaluate (.Power l r) env
      = ((evalValue l env).pow (evalValue r env),
         evalDiags l env ++ evalDiags r env, env) := by
  simp [evaluate, evaluate_env, evalValue, evalDiags]

theorem evaluate_Divide (l r : ASTNode) (env : Env) :
    evaluate (.Divide l r) env
      = if (evalValue r env).isZero then
          (.posInf, evalDiags r env ++ [.DivisionByZero], env)
        else
          ((evalValue l env).div (evalValue r env),
           evalDiags r env ++ (evalDiags l env ++ evalDiags r env), env) := by
  simp only [evaluate]
  split <;> simp_all [evaluate_env, evalValue, evalDiags]

/-! ### Claim theorems -/

/-- C1: for a `Divide` node with subtrees `a` and `b`, if `b` evaluates to a
value for which the `== 0` test fails, `evaluate` returns `eval(a)` divided
by `eval(b)`; if the test succeeds (the value is exactly `0.0`), `evaluate`
appends exactly one division-by-zero diagnostic to the error stream and
returns positive infinity, without aborting the evaluation. -/
theorem Divide_evaluate_spec (a b : ASTNode) (env : Env) :
    ((evalValue b env).isZero = false →
        evalValue (.Divide a b) env = (evalValue a env).div (evalValue b env)) ∧
    ((evalValue b env).isZero = true →
        evalValue (.Divide a b) env = .posInf ∧
        evalDiags (.Divide a b) env = evalDiags b env ++ [.DivisionByZero]) := by
  constructor
  · intro h
    have e := evaluate_Divide a b env
    rw [h] at e
    simp only [Bool.false_eq_true, if_false] at e
    exact congrArg (fun p => p.1) e
  · intro h
    have e := evaluate_Divide a b env
    rw [h] at e
    simp only [if_true] at e
    exact ⟨congrArg (fun p => p.1) e, congrArg (fun p => p.2.1) e⟩

/-- C1 witness: `8 / 2` evaluates to `4` with no diagnostic; `8 / 0`
evaluates to positive infinity with one division-by-zero diagnostic. -/
theorem Divide_evaluate_spec_witness :
    evalValue (.Divide (.Constant (.num 8)) (.Constant (.num 2))) emptyEnv = .num 4 ∧
    evalValue (.Divide (.Constant (.num 8)) (.Constant (.num 0))) emptyEnv = .posInf ∧
    evalDiags (.Divide (.Constant (.num 8)) (.Constant (.num 0))) emptyEnv
      = [.DivisionByZero] := by
  refine ⟨?_, ?_, ?_⟩
  · have h := (Divide_evaluate_spec (.Constant (.num 8)) (.Constant (.num 2))
      emptyEnv).1 (by norm_num [evalValue, evaluate, Double.isZero])
    rw [h]
    norm_num [evalValue, evaluate, Double.div]
  · exact ((Divide_evaluate_spec (.Constant (.num 8)) (.Constant (.num 0))
      emptyEnv).2 (by simp [evalValue, evaluate, Double.isZero])).1
  · have h := ((Divide_evaluate_spec (.Constant (.num 8)) (.Constant (.num 0))
      emptyEnv).2 (by simp [evalValue, evaluate, Double.isZero])).2
    rw [h]
    simp [evalDiags, evaluate]

/-- C2 counterexample: in `Divide(Identifier "u", Constant 0)` with an empty
table, the right child evaluates to `0.0` and the left child is never
evaluated, so its undefined-variable diagnostic does NOT surface — the claim
says it is preserved.  Moreover, in `Divide(Constant 1, Identifier "u")` the
right child's diagnostic appears twice, so the children are not evaluated
exactly once each. -/
theorem Divide_left_not_evaluated_cex :
    evalDiags (.Divide (.Identifier "u") (.Constant (.num 0))) emptyEnv
      = [.DivisionByZero] ∧
    Diag.UndefinedVariable "u" ∉
      evalDiags (.Divide (.Identifier "u") (.Constant (.num 0))) emptyEnv ∧
    evalDiags
        (.Divide (.Constant (.num 1)) (.Add (.Identifier "u") (.Constant (.num 1))))
        emptyEnv
      = [.UndefinedVariable "u", .UndefinedVariable "u"] := by
  refine ⟨?_, ?_, ?_⟩ <;>
    norm_num [evalDiags, evaluate, emptyEnv, Double.isZero, Double.add, Double.div] <;>
    decide

/-- C2 amended: `Add`, `Subtract`, `Multiply` and `Power` evaluate the left
child before the right child, each exactly once, so the diagnostics of both
subtrees surface in left-then-right order.  `Divide` evaluates the RIGHT
child first for its zero test; if that value is exactly `0.0`, it emits the
division-by-zero diagnostic and returns without evaluating the left child
(whose diagnostics therefore do not surface); otherwise it evaluates the
left child and then the right child a second time, so both subtrees'
diagnostics surface, the right child's twice. -/
theorem binary_children_evaluation_amended (l r : ASTNode) (env : Env) :
    evalDiags (.Add l r) env = evalDiags l env ++ evalDiags r env ∧
    evalDiags (.Subtract l r) env = evalDiags l env ++ evalDiags r env ∧
    evalDiags (.Multiply l r) env = evalDiags l env ++ evalDiags r env ∧
    evalDiags (.Power l r) env = evalDiags l env ++ evalDiags r env ∧
    evalDiags (.Divide l r) env =
      (if (evalValue r env).isZero then
        evalDiags r env ++ [.DivisionByZero]
      else
        evalDiags r env ++ (evalDiags l env ++ evalDiags r env)) := by
  refine ⟨?_, ?_, ?_, ?_, ?_⟩ <;>
    simp only [evalDiags, evaluate_Add, evaluate_Subtract, evaluate_Multiply,
      evaluate_Power, evaluate_Divide] <;>
    split <;> rfl

/-- C3: `Identifier::evaluate` returns the bound value when the table binds
the name — in particular, after `setVariable(n, v)` with no later overwrite
or clear, it returns exactly `v`; when the name is unbound it writes one
undefined-variable diagnostic naming it and returns `0.0`, leaving the table
unchanged so that evaluation of an enclosing tree proceeds. -/
theorem Identifier_evaluate_spec (n : String) (env : Env) :
    (∀ v : Double, env n = some v → evaluate (.Identifier n) env = (v, [], env)) ∧
    (env n = none →
      evaluate (.Identifier n) env = (.num 0, [.UndefinedVariable n], env)) ∧
    (∀ v : Double,
      evaluate (.Identifier n) (setVariable env n v)
        = (v, [], setVariable env n v)) := by
  refine ⟨?_, ?_, ?_⟩
  · intro v h
    exact evaluate_Identifier_found n v env h
  · intro h
    exact evaluate_Identifier_missing n env h
  · intro v
    exact evaluate_Identifier_found n v _ (by simp [setVariable])

/-- C3 witness: with `x` bound to `10`, `Identifier "x"` evaluates to `10`
with no diagnostic; with the empty table, `Identifier "y"` evaluates to
`0.0` with one undefined-variable diagnostic naming `y`. -/
theorem Identifier_evaluate_spec_witness :
    evaluate (.Identifier "x") (setVariable emptyEnv "x" (.num 10))
      = (.num 10, [], setVariable emptyEnv "x" (.num 10)) ∧
    evaluate (.Identifier "y") emptyEnv
      = (.num 0, [.UndefinedVariable "y"], emptyEnv) := by
  constructor
  · exact (Identifier_evaluate_spec "x" (setVariable emptyEnv "x" (.num 10))).1
      (.num 10) (by simp [setVariable])
  · exact (Identifier_evaluate_spec "y" emptyEnv).2.1 rfl

/-- C4: `clearVariables` removes every binding and never fails; afterwards,
evaluating an `Identifier` for a name that was previously bound returns
`0.0` and writes one undefined-variable diagnostic. -/
theorem clearVariables_spec (env : Env) (n : String) (v : Double)
    (h : env n = some v) :
    (∀ m : String, clearVariables env m = none) ∧
    evaluate (.Identifier n) (clearVariables env)
      = (.num 0, [.UndefinedVariable n], clearVariables env) :=
  ⟨fun _ => rfl, evaluate_Identifier_missing n _ rfl⟩

/-- C4 witness: binding `x` to `10` and then clearing leaves `x` unbound,
and `Identifier "x"` then evaluates to `0.0` with its diagnostic. -/
theorem clearVariables_spec_witness :
    clearVariables (setVariable emptyEnv "x" (.num 10)) "x" = none ∧
    evaluate (.Identifier "x") (clearVariables (setVariable emptyEnv "x" (.num 10)))
      = (.num 0, [.UndefinedVariable "x"],
         clearVariables (setVariable emptyEnv "x" (.num 10))) := by
  have h := clearVariables_spec (setVariable emptyEnv "x" (.num 10)) "x" (.num 10)
    (by simp [setVariable, emptyEnv])
  exact ⟨h.1 "x", h.2⟩

/-- C5: `Add`, `Subtract` and `Multiply` evaluate to the sum, difference and
product of their children's values, and `Power` evaluates to `std::pow` of
them, the model of which follows IEEE-754 `pow` — in particular
`pow(x, 0) = 1` for every `x` (so `0^0 = 1`) and NaN operands otherwise
propagate. -/
theorem binary_arith_spec (a b : ASTNode) (env : Env) :
    evalValue (.Add a b) env = (evalValue a env).add (evalValue b env) ∧
    evalValue (.Subtract a b) env = (evalValue a env).sub (evalValue b env) ∧
    evalValue (.Multiply a b) env = (evalValue a env).mul (evalValue b env) ∧
    evalValue (.Power a b) env = (evalValue a env).pow (evalValue b env) ∧
    (∀ x : Double, x.pow (.num 0) = .num 1) ∧
    Double.nan.pow (.num 2) = Double.nan := by
  refine ⟨?_, ?_, ?_, ?_, ?_, ?_⟩
  · exact congrArg (fun p => p.1) (evaluate_Add a b env)
  · exact congrArg (fun p => p.1) (evaluate_Subtract a b env)
  · exact congrArg (fun p => p.1) (evaluate_Multiply a b env)
  · exact congrArg (fun p => p.1) (evaluate_Power a b env)
  · intro x
    simp [Double.pow]
  · norm_num [Double.pow]

/-- C6: `UnaryPlus` returns its child's value unchanged, `UnaryMinus`
returns its arithmetic negation, and a `Constant` built from `x` evaluates
to exactly `x`. -/
theorem unary_constant_spec (a : ASTNode) (env : Env) :
    evalValue (.UnaryPlus a) env = evalValue a env ∧
    evalValue (.UnaryMinus a) env = (evalValue a env).neg ∧
    (∀ x : Double, evaluate (.Constant x) env = (x, [], env)) := by
  refine ⟨?_, ?_, fun x => rfl⟩
  · exact congrArg (fun p => p.1) (evaluate_UnaryPlus a env)
  · exact congrArg (fun p => p.1) (evaluate_UnaryMinus a env)

/-- C7: evaluation leaves the variable table unchanged — even a
missing-name lookup inserts no binding — and evaluating the same tree again
in the state the first call left behind yields the same value, diagnostics
and state. -/
theorem evaluate_pure_spec (n : ASTNode) (env : Env) :
    evalEnv n env = env ∧
    evaluate n (evalEnv n env) = evaluate n env := by
  have h : evalEnv n env = env := evaluate_env n env
  exact ⟨h, by rw [h]⟩

/-- C8: with bindings `a=3, b=1, c=5, d=2`, the tree
`Divide(Multiply(Constant 2, Add(a, b)), Power(Subtract(c, Constant 1),
Add(d, Constant 1)))` evaluates to exactly `0.125` (= 1/8 = 8 / 4^3), with
no diagnostics. -/
theorem end_to_end_scenario2 :
    evalValue
      (.Divide
        (.Multiply (.Constant (.num 2)) (.Add (.Identifier "a") (.Identifier "b")))
        (.Power (.Subtract (.Identifier "c") (.Constant (.num 1)))
          (.Add (.Identifier "d") (.Constant (.num 1)))))
      (setVariable (setVariable (setVariable (setVariable emptyEnv
        "a" (.num 3)) "b" (.num 1)) "c" (.num 5)) "d" (.num 2))
      = .num (1/8) ∧
    evalDiags
      (.Divide
        (.Multiply (.Constant (.num 2)) (.Add (.Identifier "a") (.Identifier "b")))
        (.Power (.Subtract (.Identifier "c") (.Constant (.num 1)))
          (.Add (.Identifier "d") (.Constant (.num 1)))))
      (setVariable (setVariable (setVariable (setVariable emptyEnv
        "a" (.num 3)) "b" (.num 1)) "c" (.num 5)) "d" (.num 2))
      = [] := by
  set E : Env := setVariable (setVariable (setVariable (setVariable emptyEnv
    "a" (.num 3)) "b" (.num 1)) "c" (.num 5)) "d" (.num 2) with hE
  have ha : evaluate (.Identifier "a") E = (.num 3, [], E) :=
    evaluate_Identifier_found _ _ _ (by rw [hE]; simp [setVariable, emptyEnv])
  have hb : evaluate (.Identifier "b") E = (.num 1, [], E) :=
    evaluate_Identifier_found _ _ _ (by rw [hE]; simp [setVariable, emptyEnv])
  have hc : evaluate (.Identifier "c") E = (.num 5, [], E) :=
    evaluate_Identifier_found _ _ _ (by rw [hE]; simp [setVariable, emptyEnv])
  have hd : evaluate (.Identifier "d") E = (.num 2, [], E) :=
    evaluate_Identifier_found _ _ _ (by rw [hE]; simp [setVariable, emptyEnv])
  constructor <;>
  · simp only [evalValue, evalDiags, evaluate_Divide, evaluate_Multiply,
      evaluate_Add, evaluate_Subtract, evaluate_Power, evaluate_Constant,
      ha, hb, hc, hd]
    norm_num [Double.isZero, Double.add, Double.sub, Double.mul, Double.div,
      Double.neg, Double.pow]

/-- C9: `getType` returns the leaf-specific tag of each constructible
variant; the generic `Unary` and `Binary` enumeration values are never
returned by any constructible node. -/
theorem getType_leaf_tags (n : ASTNode) :
    getType n ≠ .Unary ∧ getType n ≠ .Binary ∧
    (∀ v, getType (.Constant v) = .Constant) ∧
    (∀ s, getType (.Identifier s) = .Identifier) ∧
    (∀ a, getType (.UnaryPlus a) = .UnaryPlus) ∧
    (∀ a, getType (.UnaryMinus a) = .UnaryMinus) ∧
    (∀ a b, getType (.Add a b) = .Add) ∧
    (∀ a b, getType (.Subtract a b) = .Subtract) ∧
    (∀ a b, getType (.Multiply a b) = .Multiply) ∧
    (∀ a b, getType (.Divide a b) = .Divide) ∧
    (∀ a b, getType (.Power a b) = .Power) := by
  refine ⟨?_, ?_, fun _ => rfl, fun _ => rfl, fun _ => rfl, fun _ => rfl,
    fun _ _ => rfl, fun _ _ => rfl, fun _ _ => rfl, fun _ _ => rfl, fun _ _ => rfl⟩
  · cases n <;> simp [getType]
  · cases n <;> simp [getType]

/-- C10: when the right child of a `Divide` node evaluates to a nonzero
value, one `evaluate` call evaluates the right child twice — once in the
zero test and once in the quotient — so every diagnostic of the right
subtree appears twice (and each of the left subtree's once). -/
theorem Divide_right_evaluated_twice (a b : ASTNode) (env : Env)
    (h : (evalValue b env).isZero = false) :
    evalDiags (.Divide a b) env
      = evalDiags b env ++ (evalDiags a env ++ evalDiags b env) ∧
    ∀ d : Diag, (evalDiags (.Divide a b) env).count d
        = 2 * (evalDiags b env).count d + (evalDiags a env).count d := by
  have e := evaluate_Divide a b env
  rw [h] at e
  simp only [Bool.false_eq_true, if_false] at e
  have hd : evalDiags (.Divide a b) env
      = evalDiags b env ++ (evalDiags a env ++ evalDiags b env) :=
    congrArg (fun p => p.2.1) e
  refine ⟨hd, fun d => ?_⟩
  rw [hd]
  simp [List.count_append]
  ring

/-- C10 witness: dividing by `Add(Identifier "w", Constant 1)` (value `1`,
one undefined-variable diagnostic for `w`) surfaces that diagnostic twice in
a single evaluation. -/
theorem Divide_right_evaluated_twice_witness :
    evalDiags
        (.Divide (.Constant (.num 1)) (.Add (.Identifier "w") (.Constant (.num 1))))
        emptyEnv
      = [.UndefinedVariable "w", .UndefinedVariable "w"] := by
  have h := (Divide_right_evaluated_twice (.Constant (.num 1))
    (.Add (.Identifier "w") (.Constant (.num 1))) emptyEnv
    (by norm_num [evalValue, evaluate, emptyEnv, Double.add, Double.isZero])).1
  rw [h]
  norm_num [evalDiags, evaluate, emptyEnv]
